import Mathlib

/-!
# Formal model of the streetvision inference subnet core

A shallow embedding, in Lean 4, of the core components of the repository:

* the content hasher `hash_image_bytes` shared by client and server
  (`src/client.py`, `src/gpu_server_api_with_queue.py`), modelled on top of a
  concrete SHA-256 implementation standing for `hashlib.sha256(..).hexdigest()`;
* the client wrapper `predict_with_cache` (`src/client.py`) with its
  local-cache-first lookup and per-failure-class retry policy;
* the inference broker (`src/gpu_server_api_with_queue.py`): the `/predict`
  handler, the job queue and the single `inference_worker` loop, modelled as a
  sequential state machine over (cache store, job queue);
* the reward engine `get_rewards` / `compute_penalty`
  (`src/natix/validator/reward.py`) together with a model of the
  `PerformanceTracker` it drives (that class is not part of the sources here,
  so it is modelled from the specification's description).

Raw image bytes are `List Nat` (each entry a byte value), floats are `ℚ`,
Python dictionaries are association lists, and Python exceptions are explicit
`Option`/flag values threaded through the definitions.
-/

/-- Raw image bytes, the input of the content hasher. -/
abbrev ByteSeq := List Nat

namespace SHA256

/-!  A concrete executable SHA-256 over `Nat` words reduced mod `2 ^ 32`,
modelling the external `hashlib.sha256` digest that both `client.py` and
`gpu_server_api_with_queue.py` call.  Words are `Nat` kept below `2 ^ 32` by
explicit masking. -/

/-- The 32-bit mask `2 ^ 32 - 1`. -/
def mask32 : Nat := 2 ^ 32 - 1

/-- Addition of 32-bit words, with wrap-around. -/
def add32 (x y : Nat) : Nat := (x + y) % 2 ^ 32

/-- Right rotation of a 32-bit word by `n` places. -/
def rotr (n x : Nat) : Nat := ((x >>> n) ||| (x <<< (32 - n))) &&& mask32

/-- Big sigma-0: `ROTR^2 xor ROTR^13 xor ROTR^22`. -/
def bsig0 (x : Nat) : Nat := rotr 2 x ^^^ rotr 13 x ^^^ rotr 22 x

/-- Big sigma-1: `ROTR^6 xor ROTR^11 xor ROTR^25`. -/
def bsig1 (x : Nat) : Nat := rotr 6 x ^^^ rotr 11 x ^^^ rotr 25 x

/-- Small sigma-0: `ROTR^7 xor ROTR^18 xor SHR^3`. -/
def ssig0 (x : Nat) : Nat := rotr 7 x ^^^ rotr 18 x ^^^ (x >>> 3)

/-- Small sigma-1: `ROTR^17 xor ROTR^19 xor SHR^10`. -/
def ssig1 (x : Nat) : Nat := rotr 17 x ^^^ rotr 19 x ^^^ (x >>> 10)

/-- The choice function `(x and y) xor (not x and z)`. -/
def ch (x y z : Nat) : Nat := (x &&& y) ^^^ ((x ^^^ mask32) &&& z)

/-- The majority function. -/
def maj (x y z : Nat) : Nat := (x &&& y) ^^^ (x &&& z) ^^^ (y &&& z)

/-- The 64 round constants (fractional parts of the cube roots of the first
64 primes). -/
def K : List Nat :=
  [1116352408, 1899447441, 3049323471, 3921009573, 961987163, 1508970993,
   2453635748, 2870763221, 3624381080, 310598401, 607225278, 1426881987,
   1925078388, 2162078206, 2614888103, 3248222580, 3835390401, 4022224774,
   264347078, 604807628, 770255983, 1249150122, 1555081692, 1996064986,
   2554220882, 2821834349, 2952996808, 3210313671, 3336571891, 3584528711,
   113926993, 338241895, 666307205, 773529912, 1294757372, 1396182291,
   1695183700, 1986661051, 2177026350, 2456956037, 2730485921, 2820302411,
   3259730800, 3345764771, 3516065817, 3600352804, 4094571909, 275423344,
   430227734, 506948616, 659060556, 883997877, 958139571, 1322822218,
   1537002063, 1747873779, 1955562222, 2024104815, 2227730452, 2361852424,
   2428436474, 2756734187, 3204031479, 3329325298]

/-- The running state of the compression function: eight 32-bit words. -/
structure Words8 where
  a : Nat
  b : Nat
  c : Nat
  d : Nat
  e : Nat
  f : Nat
  g : Nat
  h : Nat
deriving Repr, DecidableEq

/-- The initial hash value (fractional parts of the square roots of the first
8 primes). -/
def H0 : Words8 :=
  ⟨1779033703, 3144134277, 1013904242, 2773480762,
   1359893119, 2600822924, 528734635, 1541459225⟩

/-- Big-endian byte expansion of `v` to `n` bytes. -/
def toBytesBE : Nat → Nat → ByteSeq
  | 0, _ => []
  | n + 1, v => toBytesBE n (v >>> 8) ++ [v &&& 0xff]

/-- Merkle–Damgård padding: append `0x80`, zero bytes up to 56 mod 64, then
the bit length as a 64-bit big-endian quantity. -/
def pad (msg : ByteSeq) : ByteSeq :=
  let L := msg.length
  let zeros := (64 - (L + 9) % 64) % 64
  msg ++ [0x80] ++ List.replicate zeros 0 ++ toBytesBE 8 ((8 * L) % 2 ^ 64)

/-- Group a byte sequence into big-endian 32-bit words. -/
def toWordsBE : ByteSeq → List Nat
  | a :: b :: c :: d :: rest => (((a * 256 + b) * 256 + c) * 256 + d) :: toWordsBE rest
  | _ => []

/-- Split a word list into blocks of 16 words. -/
def blocks16 : List Nat → List (List Nat)
  | [] => []
  | w :: ws => ((w :: ws).take 16) :: blocks16 ((w :: ws).drop 16)
termination_by l => l.length
decreasing_by simp [List.length_drop]; omega

/-- One extension step of the message schedule: append the next word
`ssig1 W(t-2) + W(t-7) + ssig0 W(t-15) + W(t-16)`. -/
def stepW (w : List Nat) : List Nat :=
  let l := w.length
  w ++ [add32 (add32 (ssig1 (w.getD (l - 2) 0)) (w.getD (l - 7) 0))
              (add32 (ssig0 (w.getD (l - 15) 0)) (w.getD (l - 16) 0))]

/-- Iterate the message-schedule extension `n` times. -/
def iterW : Nat → List Nat → List Nat
  | 0, w => w
  | n + 1, w => iterW n (stepW w)

/-- The full 64-entry message schedule of a 16-word block. -/
def fullW (block : List Nat) : List Nat := iterW 48 block

/-- One round of the compression function, consuming one `(K, W)` pair. -/
def compressStep (st : Words8) (kw : Nat × Nat) : Words8 :=
  let t1 := add32 st.h (add32 (bsig1 st.e) (add32 (ch st.e st.f st.g) (add32 kw.1 kw.2)))
  let t2 := add32 (bsig0 st.a) (maj st.a st.b st.c)
  ⟨add32 t1 t2, st.a, st.b, st.c, add32 st.d t1, st.e, st.f, st.g⟩

/-- Compress one 16-word block into the running hash value. -/
def compressBlock (h : Words8) (block : List Nat) : Words8 :=
  let st := (K.zip (fullW block)).foldl compressStep h
  ⟨add32 h.a st.a, add32 h.b st.b, add32 h.c st.c, add32 h.d st.d,
   add32 h.e st.e, add32 h.f st.f, add32 h.g st.g, add32 h.h st.h⟩

/-- The SHA-256 hash of a byte sequence, as eight 32-bit words. -/
def hashWords (msg : ByteSeq) : Words8 :=
  (blocks16 (toWordsBE (pad msg))).foldl compressBlock H0

/-- A lowercase hexadecimal digit. -/
def hexDigit (n : Nat) : Char :=
  if n < 10 then Char.ofNat (48 + n) else Char.ofNat (87 + n)

/-- The eight-character lowercase hexadecimal rendering of a 32-bit word. -/
def hex8 (v : Nat) : List Char :=
  (List.range 8).map (fun i => hexDigit ((v >>> (28 - 4 * i)) &&& 15))

/-- The 64-character lowercase hexadecimal digest of a hash state. -/
def hexdigest (w : Words8) : String :=
  String.mk (([w.a, w.b, w.c, w.d, w.e, w.f, w.g, w.h].map hex8).flatten)

/-- `hashlib.sha256(msg).hexdigest()`: the lowercase hex SHA-256 digest. -/
def sha256hex (msg : ByteSeq) : String := hexdigest (hashWords msg)

end SHA256

/-!  ## The cache store

Both `client.py` and `gpu_server_api_with_queue.py` use a Redis instance as a
key→value store (`rdb.get` / `rdb.set`), keyed by the hex fingerprint and
holding a probability.  It is modelled as an association list, newest binding
first, so `cacheSet` overwrites as Redis `SET` does. -/

/-- A key→value cache store mapping fingerprint strings to probabilities. -/
abbrev Cache := List (String × ℚ)

/-- `rdb.get k`: `some v` on a hit, `none` when the key is absent. -/
def cacheGet (c : Cache) (k : String) : Option ℚ := List.lookup k c

/-- `rdb.set k v`: bind `k` to `v`, shadowing any previous binding. -/
def cacheSet (c : Cache) (k : String) (v : ℚ) : Cache := (k, v) :: c

/-- A cache with no entries. -/
def emptyCache : Cache := []

namespace Client

/-!  ## `src/client.py` — the client wrapper -/

/-- `hash_image_bytes` of `client.py`: the SHA-256 hex digest of the raw
image bytes. -/
def hash_image_bytes (image_bytes : ByteSeq) : String := SHA256.sha256hex image_bytes

/-- The JSON body of a successful (2xx) broker response, as the client reads
it: an optional `error` field, the `from_cache` flag and the probability
(the shapes the server emits, per the HTTP interface contract). -/
structure BrokerJson where
  error : Option String
  from_cache : Bool
  probability : ℚ
deriving Repr, DecidableEq

/-- The outcome of one `requests.post` to the broker, as discriminated by the
client's `except` clauses: a `Timeout`, any other `RequestException` (which
includes non-2xx statuses surfaced by `raise_for_status`), or a 2xx response
with a JSON body. -/
inductive BrokerOutcome where
  | timeout
  | requestError
  | ok (j : BrokerJson)
deriving Repr, DecidableEq

/-- The observable result of a `predict_with_cache` call: the returned value,
the client-side cache afterwards, and how many requests were issued. -/
structure LoopResult where
  value : ℚ
  cache : Cache
  requests : Nat
deriving Repr, DecidableEq

/-- The fixed fallback probability returned when no attempt succeeds. -/
def SENTINEL : ℚ := 999999999 / 1000000000

/-- The retry loop of `predict_with_cache`: `attempt` is the 1-based attempt
number about to run and the second argument is the number of attempts left
(`max_retries - attempt + 1`).  A broker is a map from attempt number to the
outcome of the request issued on that attempt.  `Timeout` and an
application-level `error` body consume the attempt and continue;
any other `RequestException` breaks out of the loop; a success returns the
probability, writing the local cache only when `from_cache` is false. -/
def attemptLoop (broker : Nat → BrokerOutcome) (image_hash : String) (cache : Cache) :
    Nat → Nat → LoopResult
  | _, 0 => ⟨SENTINEL, cache, 0⟩
  | attempt, rem + 1 =>
    match broker attempt with
    | .timeout =>
      let r := attemptLoop broker image_hash cache (attempt + 1) rem
      ⟨r.value, r.cache, r.requests + 1⟩
    | .requestError => ⟨SENTINEL, cache, 1⟩
    | .ok j =>
      if j.error.isSome then
        let r := attemptLoop broker image_hash cache (attempt + 1) rem
        ⟨r.value, r.cache, r.requests + 1⟩
      else if j.from_cache then
        ⟨j.probability, cache, 1⟩
      else
        ⟨j.probability, cacheSet cache image_hash j.probability, 1⟩

/-- `predict_with_cache` of `client.py`: hash the bytes, consult the local
Redis cache, and on a miss run the retry loop for `max_retries` attempts. -/
def predict_with_cache (broker : Nat → BrokerOutcome) (image_bytes : ByteSeq)
    (cache : Cache) (max_retries : Nat) : LoopResult :=
  let image_hash := hash_image_bytes image_bytes
  match cacheGet cache image_hash with
  | some v => ⟨v, cache, 0⟩
  | none => attemptLoop broker image_hash cache 1 max_retries

end Client

namespace GpuServer

/-!  ## `src/gpu_server_api_with_queue.py` — the inference broker

The broker is modelled as a sequential state machine over the pair
(cache store, job queue).  The single worker thread of the source is the
sole consumer of the queue; its processing of one job is `processJob`
(re-check the cache, else run inference and write the cache), and the
completion event firing with the job's result corresponds to the `ℚ` value
`processJob` returns.  The `/predict` handler's blocking
`result_event.wait(timeout=60)` is modelled by a `waited : Bool` argument:
`true` means the worker got to this job within the bound (so the worker has
processed the whole queue up to and including it), `false` means the wait
elapsed first and the handler answered while the job was still pending. -/

/-- `hash_image_bytes` of `gpu_server_api_with_queue.py`: the SHA-256 hex
digest of the raw image bytes. -/
def hash_image_bytes (image_bytes : ByteSeq) : String := SHA256.sha256hex image_bytes

/-- An `InferenceJob`: the fingerprint and the raw bytes (the completion
event and result slot are represented by the worker's return value). -/
structure Job where
  image_hash : String
  image_bytes : ByteSeq
deriving Repr, DecidableEq

/-- The broker's mutable state: the cache store and the pending job queue
(front of the list is the next job the worker will take). -/
structure ServerState where
  cache : Cache
  queue : List Job
deriving Repr, DecidableEq

/-- An HTTP response of the `/predict` endpoint: a 200 JSON body
`{"from_cache": bool, "probability": p}` or an error status with a JSON
body `{"error": msg}`. -/
inductive PredictResponse where
  | ok (from_cache : Bool) (probability : ℚ)
  | errorResponse (status : Nat) (error : String)
deriving Repr, DecidableEq

/-- The timeout response: status 504, body `{"error": "Inference timeout"}`. -/
def InferenceTimeout : PredictResponse := .errorResponse 504 "Inference timeout"

/-- The bound, in time units, of the handler's wait on the completion
event (`result_event.wait(timeout=60)`). -/
def wait_timeout_bound : Nat := 60

/-- The body of the worker loop for one dequeued job: re-check the cache
(in case the result was saved meanwhile) and serve the cached value if
present, else invoke the external inference function and write the result to
the cache store; the returned `ℚ` is the result stored in the job and
signalled through its completion event. -/
def processJob (infer : ByteSeq → ℚ) (cache : Cache) (job : Job) : Cache × ℚ :=
  match cacheGet cache job.image_hash with
  | some p => (cache, p)
  | none =>
    let p := infer job.image_bytes
    (cacheSet cache job.image_hash p, p)

/-- One iteration of `inference_worker`: dequeue the front job (if any) and
process it, yielding the new state and the completed job's result. -/
def inference_worker_step (infer : ByteSeq → ℚ) (s : ServerState) :
    ServerState × Option ℚ :=
  match s.queue with
  | [] => (s, none)
  | job :: rest =>
    let r := processJob infer s.cache job
    (⟨r.1, rest⟩, some r.2)

/-- The worker processing a list of jobs in order, threading the cache. -/
def processQueue (infer : ByteSeq → ℚ) : Cache → List Job → Cache
  | c, [] => c
  | c, j :: rest => processQueue infer (processJob infer c j).1 rest

/-- The `/predict` handler: hash the uploaded bytes; on a cache hit answer
`{"from_cache": true, ...}` at once, touching neither the queue nor the
cache; on a miss enqueue an `InferenceJob` and block on its completion event
up to `wait_timeout_bound`.  `waited = true` is the run in which the event
fired in time: the worker has then processed the queue through this job, and
the handler answers `{"from_cache": false, ...}` with the job's result.
`waited = false` is the run in which the wait elapsed first: the handler
answers `InferenceTimeout` and the job stays in the queue, not cancelled. -/
def predict (infer : ByteSeq → ℚ) (image_bytes : ByteSeq) (s : ServerState)
    (waited : Bool) : ServerState × PredictResponse :=
  let image_hash := hash_image_bytes image_bytes
  match cacheGet s.cache image_hash with
  | some p => (s, .ok true p)
  | none =>
    let job : Job := ⟨image_hash, image_bytes⟩
    if waited then
      let c1 := processQueue infer s.cache s.queue
      let r := processJob infer c1 job
      (⟨r.1, []⟩, .ok false r.2)
    else
      (⟨s.cache, s.queue ++ [job]⟩, InferenceTimeout)

end GpuServer

/-!  ## `src/natix/validator/reward.py` — the reward engine -/

/-- Set the binding of `k` in an association list, shadowing any old one. -/
def assocSet {α : Type} (l : List (Nat × α)) (k : Nat) (v : α) : List (Nat × α) :=
  (k, v) :: l.filter (fun e => e.1 != k)

/-- The pair of windowed statistics `get_metrics` returns and `get_rewards`
reads (`metrics["mcc"]` and `metrics["accuracy"]`). -/
structure Metrics where
  mcc : ℚ
  accuracy : ℚ
deriving Repr, DecidableEq

/-- Modelled from the spec: the `PerformanceTracker` class itself is not
among the sources (only its caller `reward.py` is).  Per the spec's data
model it is a "mapping from minerID → rolling history of (prediction, label)
pairs, plus mapping minerID → last-known identity key (hotkey)", with
"history windows trimmed to fixed sizes (10, 100)" and FIFO trimming. -/
structure PerformanceTracker where
  miner_hotkeys : List (Nat × String)
  prediction_history : List (Nat × List (ℚ × ℚ))
deriving Repr, DecidableEq

/-- The last `n` elements of a list (FIFO trimming keeps the newest). -/
def lastN {α : Type} (n : Nat) (l : List α) : List α := l.drop (l.length - n)

namespace PerformanceTracker

/-- A tracker with no miners recorded. -/
def empty : PerformanceTracker := ⟨[], []⟩

/-- The tracked hotkey of a miner (`miner_hotkeys[uid]`), if any. -/
def hotkeyOf (t : PerformanceTracker) (uid : Nat) : Option String :=
  List.lookup uid t.miner_hotkeys

/-- The rolling (prediction, label) history of a miner, oldest first. -/
def historyOf (t : PerformanceTracker) (uid : Nat) : List (ℚ × ℚ) :=
  (List.lookup uid t.prediction_history).getD []

/-- Modelled from the spec: `reset_miner_history(uid, hotkey)` — a "full
history reset for that miner" on identity-key mismatch, re-tracking the
miner under the new hotkey. -/
def reset_miner_history (t : PerformanceTracker) (uid : Nat) (hotkey : String) :
    PerformanceTracker :=
  ⟨assocSet t.miner_hotkeys uid hotkey, assocSet t.prediction_history uid []⟩

/-- Modelled from the spec: `update(uid, pred, label, hotkey)` — "Record the
(prediction, label) pair into the rolling history" (trimmed FIFO to the
largest window, 100) and remember the miner's current hotkey. -/
def update (t : PerformanceTracker) (uid : Nat) (pred label : ℚ) (hotkey : String) :
    PerformanceTracker :=
  ⟨assocSet t.miner_hotkeys uid hotkey,
   assocSet t.prediction_history uid (lastN 100 (t.historyOf uid ++ [(pred, label)]))⟩

end PerformanceTracker

/-- Binary classification of a probability (threshold 1/2). -/
def isPos (x : ℚ) : Bool := decide ((1 : ℚ) / 2 ≤ x)

/-- Matthews correlation coefficient of a (prediction, label) list, with the
square root of the denominator product taken over the integers and the
degenerate (zero-denominator) case yielding 0. -/
def mccOf (l : List (ℚ × ℚ)) : ℚ :=
  let tp := l.countP (fun o => isPos o.1 && isPos o.2)
  let tn := l.countP (fun o => !isPos o.1 && !isPos o.2)
  let fp := l.countP (fun o => isPos o.1 && !isPos o.2)
  let fm := l.countP (fun o => !isPos o.1 && isPos o.2)
  ((tp * tn : ℚ) - (fp * fm : ℚ)) /
    (Nat.sqrt ((tp + fp) * (tp + fm) * (tn + fp) * (tn + fm)) : ℚ)

/-- Raw accuracy of a (prediction, label) list (0 when empty). -/
def accuracyOf (l : List (ℚ × ℚ)) : ℚ :=
  (l.countP (fun o => isPos o.1 == isPos o.2) : ℚ) / (l.length : ℚ)

/-- The metrics of a history window. -/
def metricsOfList (l : List (ℚ × ℚ)) : Metrics := ⟨mccOf l, accuracyOf l⟩

/-- Modelled from the spec: `get_metrics(uid, window)` — "a correlation-style
metric (Matthews correlation coefficient)" and "raw accuracy", each computed
"over the last `window` observations" of the miner's rolling history. -/
def PerformanceTracker.get_metrics (t : PerformanceTracker) (uid : Nat)
    (window : Nat) : Metrics :=
  metricsOfList (lastN window (t.historyOf uid))

/-- A miner's axon, carrying its current hotkey (the only field
`get_rewards` reads). -/
structure Axon where
  hotkey : String
deriving Repr, DecidableEq

/-- `compute_penalty` of `reward.py`: 0.0 for a prediction outside `[0, 1]`,
1.0 otherwise. -/
def compute_penalty (y_pred : ℚ) : ℚ :=
  if y_pred < 0 ∨ 1 < y_pred then 0 else 1

/-- What one iteration of the scoring loop of `get_rewards` produces:
`total_reward` is the appended reward
(`miner_modality_rewards.get("image", 0.0)`), `metricsEntry` the appended
metrics-dict content (`none` for an empty dict), `caught` whether the
`except` clause ran, `tracker` the tracker state afterwards, and
`metrics_100` the value of the Python local `metrics_100` afterwards. -/
structure IterResult where
  total_reward : ℚ
  metricsEntry : Option Metrics
  caught : Bool
  tracker : PerformanceTracker
  metrics_100 : Option Metrics
deriving Repr, DecidableEq

/-- One iteration of the loop body of `get_rewards`, for one miner.  The
local `metrics_100` persists across iterations of the Python loop, so it is
threaded through (`none` models it being still unassigned).  In the
`pred_prob == -1` branch the body sets `reward = 0.0`, writes it into the
rewards dict, and then `miner_modality_metrics[modality] = metrics_100`
raises `NameError` — caught by the `except` — whenever no earlier iteration
assigned `metrics_100`; the rewards dict already holds 0.0 at that point, so
the appended reward is 0 either way.  Otherwise the body resets the tracked
history on a hotkey change, records the observation, fetches the two
windows, and combines `0.5 * mcc_100 + 0.5 * accuracy_10` gated by
`compute_penalty`. -/
def scoreOne (label : ℚ) (axon : Axon) (uid : Nat) (pred_prob : ℚ)
    (tracker : PerformanceTracker) (metrics_100 : Option Metrics) : IterResult :=
  if pred_prob = -1 then
    match metrics_100 with
    | none => ⟨0, none, true, tracker, none⟩
    | some m => ⟨0, some m, false, tracker, some m⟩
  else
    let miner_hotkey := axon.hotkey
    let t1 :=
      match tracker.hotkeyOf uid with
      | some h =>
        if h ≠ miner_hotkey then tracker.reset_miner_history uid miner_hotkey
        else tracker
      | none => tracker
    let t2 := t1.update uid pred_prob label miner_hotkey
    let m100 := t2.get_metrics uid 100
    let m10 := t2.get_metrics uid 10
    let reward := (1 : ℚ) / 2 * m100.mcc + (1 : ℚ) / 2 * m10.accuracy
    let reward := reward * compute_penalty pred_prob
    ⟨reward, some m100, false, t2, some m100⟩

/-- The scoring loop of `get_rewards` over `zip(axons, uids, responses)`
(truncating at the shortest input, as `zip` does), threading the tracker and
the `metrics_100` local and collecting each iteration's outcome. -/
def scoreTrace (label : ℚ) :
    List Axon → List Nat → List ℚ → PerformanceTracker → Option Metrics →
    List IterResult
  | axon :: axons, uid :: uids, p :: ps, t, m =>
    let r := scoreOne label axon uid p t m
    r :: scoreTrace label axons uids ps r.tracker r.metrics_100
  | _, _, _, _, _ => []

/-- `get_rewards` of `reward.py`: per-miner rewards and metrics snapshots, in
input order.  The `performance_trackers` dict of the source maps the one
modality `"image"` to its tracker, so the tracker itself is passed; the
returned lists are the source's `miner_rewards` and `miner_metrics`. -/
def get_rewards (label : ℚ) (responses : List ℚ) (uids : List Nat)
    (axons : List Axon) (performance_trackers : PerformanceTracker) :
    List ℚ × List (Option Metrics) :=
  let tr := scoreTrace label axons uids responses performance_trackers none
  (tr.map (·.total_reward), tr.map (·.metricsEntry))


/-!  ## Helper lemmas -/

theorem cacheGet_cacheSet_self (c : Cache) (k : String) (v : ℚ) :
    cacheGet (cacheSet c k v) k = some v := by
  simp [cacheGet, cacheSet, List.lookup]

theorem cacheGet_cacheSet_ne (c : Cache) (k k' : String) (v : ℚ) (h : k' ≠ k) :
    cacheGet (cacheSet c k v) k' = cacheGet c k' := by
  simp [cacheGet, cacheSet, List.lookup, beq_eq_false_iff_ne.mpr h]

theorem cacheGet_emptyCache (k : String) : cacheGet emptyCache k = none := rfl

namespace GpuServer

theorem processJob_cache_self (infer : ByteSeq → ℚ) (c : Cache) (j : Job) :
    cacheGet (processJob infer c j).1 j.image_hash = some (processJob infer c j).2 := by
  unfold processJob
  cases h : cacheGet c j.image_hash <;> simp [h, cacheGet_cacheSet_self]

theorem processJob_cache_preserve (infer : ByteSeq → ℚ) (c : Cache) (j : Job)
    (k : String) (p : ℚ) (h : cacheGet c k = some p) :
    cacheGet (processJob infer c j).1 k = some p := by
  unfold processJob
  cases hj : cacheGet c j.image_hash
  · have hne : k ≠ j.image_hash := by
      intro e
      rw [e, hj] at h
      cases h
    simpa [cacheGet_cacheSet_ne _ _ _ _ hne] using h
  · simpa using h

theorem processQueue_cache_preserve (infer : ByteSeq → ℚ) (q : List Job) :
    ∀ (c : Cache) (k : String) (p : ℚ), cacheGet c k = some p →
      cacheGet (processQueue infer c q) k = some p := by
  induction q with
  | nil => intro c k p h; simpa [processQueue] using h
  | cons j rest ih =>
    intro c k p h
    simpa [processQueue] using ih _ _ _ (processJob_cache_preserve infer c j k p h)

theorem processQueue_append (infer : ByteSeq → ℚ) (q : List Job) :
    ∀ (c : Cache) (j : Job),
      processQueue infer c (q ++ [j]) = (processJob infer (processQueue infer c q) j).1 := by
  induction q with
  | nil => intro c j; simp [processQueue]
  | cons jj rest ih => intro c j; simp [processQueue, ih]

end GpuServer

theorem lookup_assocSet_self {α : Type} (l : List (Nat × α)) (k : Nat) (v : α) :
    List.lookup k (assocSet l k v) = some v := by
  simp [assocSet, List.lookup]

namespace PerformanceTracker

theorem historyOf_update (t : PerformanceTracker) (u : Nat) (pred label : ℚ)
    (hk : String) :
    (t.update u pred label hk).historyOf u = lastN 100 (t.historyOf u ++ [(pred, label)]) := by
  simp [update, historyOf, lookup_assocSet_self]

theorem hotkeyOf_update (t : PerformanceTracker) (u : Nat) (pred label : ℚ)
    (hk : String) : (t.update u pred label hk).hotkeyOf u = some hk := by
  simp [update, hotkeyOf, lookup_assocSet_self]

theorem historyOf_reset (t : PerformanceTracker) (u : Nat) (hk : String) :
    (t.reset_miner_history u hk).historyOf u = [] := by
  simp [reset_miner_history, historyOf, lookup_assocSet_self]

end PerformanceTracker

theorem scoreOne_total_reward_invalid (label : ℚ) (a : Axon) (u : Nat) (p : ℚ)
    (t : PerformanceTracker) (m : Option Metrics)
    (hp : p < 0 ∨ 1 < p ∨ p = -1) :
    (scoreOne label a u p t m).total_reward = 0 := by
  by_cases h1 : p = -1
  · cases m <;> simp [scoreOne, h1]
  · have hbad : p < 0 ∨ 1 < p := by
      rcases hp with h | h | h
      · exact Or.inl h
      · exact Or.inr h
      · exact absurd h h1
    simp [scoreOne, h1, compute_penalty, hbad]

theorem scoreOne_caught_reward_zero (label : ℚ) (a : Axon) (u : Nat) (p : ℚ)
    (t : PerformanceTracker) (m : Option Metrics)
    (hc : (scoreOne label a u p t m).caught = true) :
    (scoreOne label a u p t m).total_reward = 0 := by
  by_cases h1 : p = -1
  · cases m <;> simp [scoreOne, h1]
  · simp [scoreOne, h1] at hc

theorem scoreTrace_length (label : ℚ) :
    ∀ (axons : List Axon) (uids : List Nat) (ps : List ℚ)
      (t : PerformanceTracker) (m : Option Metrics),
      (scoreTrace label axons uids ps t m).length
        = min axons.length (min uids.length ps.length) := by
  intro axons
  induction axons with
  | nil => intro uids ps t m; cases uids <;> cases ps <;> simp [scoreTrace]
  | cons a as ih =>
    intro uids ps t m
    cases uids with
    | nil => simp [scoreTrace]
    | cons u us =>
      cases ps with
      | nil => simp [scoreTrace]
      | cons p pss =>
        simp only [scoreTrace, List.length_cons, ih]
        omega

/-!  ## Claim theorems -/

/-- C8: the content hash function is pure and deterministic — hashing the
same byte sequence twice yields the same fingerprint — and the client-side
and server-side hash functions are the same function: for every byte
sequence the two independently computed fingerprints are equal. -/
theorem hash_image_bytes_deterministic_and_shared :
    (∀ b : ByteSeq, Client.hash_image_bytes b = Client.hash_image_bytes b) ∧
    (∀ b : ByteSeq, Client.hash_image_bytes b = GpuServer.hash_image_bytes b) :=
  ⟨fun _ => rfl, fun _ => rfl⟩

/-- C2: `predict_with_cache` treats failure classes differently: a timeout
consumes one attempt and the loop continues with the next attempt; any other
transport-class failure stops retrying immediately (one request, sentinel
returned); with a broker that times out twice then succeeds and
`max_retries = 3` the successful value is returned; and with a broker whose
first attempt raises a non-timeout transport error the sentinel is returned
after exactly one attempt. -/
theorem predict_with_cache_retry_policy :
    (∀ (broker : Nat → Client.BrokerOutcome) (ih : String) (c : Cache)
       (attempt rem : Nat), broker attempt = .timeout →
       Client.attemptLoop broker ih c attempt (rem + 1)
         = ⟨(Client.attemptLoop broker ih c (attempt + 1) rem).value,
            (Client.attemptLoop broker ih c (attempt + 1) rem).cache,
            (Client.attemptLoop broker ih c (attempt + 1) rem).requests + 1⟩) ∧
    (∀ (broker : Nat → Client.BrokerOutcome) (ih : String) (c : Cache)
       (attempt rem : Nat), broker attempt = .requestError →
       Client.attemptLoop broker ih c attempt (rem + 1) = ⟨Client.SENTINEL, c, 1⟩) ∧
    (∀ (broker : Nat → Client.BrokerOutcome) (b : ByteSeq) (p : ℚ) (fc : Bool),
       broker 1 = .timeout → broker 2 = .timeout → broker 3 = .ok ⟨none, fc, p⟩ →
       (Client.predict_with_cache broker b emptyCache 3).value = p) ∧
    (∀ (broker : Nat → Client.BrokerOutcome) (b : ByteSeq),
       broker 1 = .requestError →
       (Client.predict_with_cache broker b emptyCache 3).value = Client.SENTINEL ∧
       (Client.predict_with_cache broker b emptyCache 3).requests = 1) := by
  refine ⟨?_, ?_, ?_, ?_⟩
  · intro broker ih c attempt rem h
    simp [Client.attemptLoop, h]
  · intro broker ih c attempt rem h
    simp [Client.attemptLoop, h]
  · intro broker b p fc h1 h2 h3
    simp only [Client.predict_with_cache, cacheGet_emptyCache]
    simp only [Client.attemptLoop, h1, h2, h3]
    cases fc <;> simp
  · intro broker b h1
    simp only [Client.predict_with_cache, cacheGet_emptyCache]
    simp [Client.attemptLoop, h1]

theorem predict_with_cache_retry_policy_witness :
    (Client.predict_with_cache
        (fun n => if n ≤ 2 then .timeout else .ok ⟨none, false, 1 / 2⟩)
        [0] emptyCache 3).value = 1 / 2 ∧
    (Client.predict_with_cache (fun _ => .requestError) [0] emptyCache 3).value
      = Client.SENTINEL ∧
    (Client.predict_with_cache (fun _ => .requestError) [0] emptyCache 3).requests = 1 ∧
    Client.attemptLoop (fun _ => .timeout) "k" emptyCache 1 3
      = ⟨(Client.attemptLoop (fun _ => .timeout) "k" emptyCache 2 2).value,
         (Client.attemptLoop (fun _ => .timeout) "k" emptyCache 2 2).cache,
         (Client.attemptLoop (fun _ => .timeout) "k" emptyCache 2 2).requests + 1⟩ ∧
    Client.attemptLoop (fun _ => .requestError) "k" emptyCache 1 3
      = ⟨Client.SENTINEL, emptyCache, 1⟩ :=
  ⟨predict_with_cache_retry_policy.2.2.1 _ [0] (1 / 2) false rfl rfl rfl,
   (predict_with_cache_retry_policy.2.2.2 _ [0] rfl).1,
   (predict_with_cache_retry_policy.2.2.2 _ [0] rfl).2,
   predict_with_cache_retry_policy.1 _ "k" emptyCache 1 2 rfl,
   predict_with_cache_retry_policy.2.1 _ "k" emptyCache 1 2 rfl⟩

/-- C4: `predict_with_cache` never propagates a failure to its caller: on a
local-cache miss, if no attempt succeeds (every issued request times out,
fails with a non-timeout transport error, or yields a body carrying an
application-level `error`), the returned value is the fixed sentinel
probability `0.999999999`. -/
theorem predict_with_cache_sentinel_on_exhaustion :
    ∀ (broker : Nat → Client.BrokerOutcome) (b : ByteSeq) (c : Cache) (n : Nat),
      cacheGet c (Client.hash_image_bytes b) = none →
      (∀ a j, broker a = .ok j → j.error.isSome = true) →
      (Client.predict_with_cache broker b c n).value = Client.SENTINEL := by
  intro broker b c n hmiss hfail
  have loop : ∀ (rem attempt : Nat),
      (Client.attemptLoop broker (Client.hash_image_bytes b) c attempt rem).value
        = Client.SENTINEL := by
    intro rem
    induction rem with
    | zero => intro attempt; simp [Client.attemptLoop]
    | succ r ih =>
      intro attempt
      cases h : broker attempt with
      | timeout => simp [Client.attemptLoop, h, ih]
      | requestError => simp [Client.attemptLoop, h]
      | ok j => simp [Client.attemptLoop, h, hfail attempt j h, ih]
  simp [Client.predict_with_cache, hmiss, loop]

theorem predict_with_cache_sentinel_on_exhaustion_witness :
    cacheGet emptyCache (Client.hash_image_bytes [0]) = none ∧
    (Client.predict_with_cache (fun _ => Client.BrokerOutcome.timeout)
        [0] emptyCache 3).value = Client.SENTINEL :=
  ⟨rfl, predict_with_cache_sentinel_on_exhaustion _ [0] emptyCache 3 rfl
      (fun _ _ h => nomatch h)⟩

/-- C3: a submission whose wait elapses without the completion signal firing
returns `InferenceTimeout` (504 with body `{"error": "Inference timeout"}`),
and the enqueued job is not cancelled: it is still in the queue, the worker
processing the queue still computes (or re-reads) its result and leaves the
cache store holding an entry for its fingerprint, so a later submission for
the same fingerprint observes a cache hit with that entry. -/
theorem predict_timeout_job_not_cancelled :
    ∀ (infer : ByteSeq → ℚ) (s : GpuServer.ServerState) (b : ByteSeq),
      cacheGet s.cache (GpuServer.hash_image_bytes b) = none →
      (GpuServer.predict infer b s false).2 = GpuServer.InferenceTimeout ∧
      GpuServer.Job.mk (GpuServer.hash_image_bytes b) b
        ∈ (GpuServer.predict infer b s false).1.queue ∧
      ∃ p,
        cacheGet
            (GpuServer.processQueue infer (GpuServer.predict infer b s false).1.cache
              (GpuServer.predict infer b s false).1.queue)
            (GpuServer.hash_image_bytes b) = some p ∧
        ∀ w : Bool,
          GpuServer.predict infer b
              ⟨GpuServer.processQueue infer (GpuServer.predict infer b s false).1.cache
                 (GpuServer.predict infer b s false).1.queue, []⟩ w
            = (⟨GpuServer.processQueue infer
                  (GpuServer.predict infer b s false).1.cache
                  (GpuServer.predict infer b s false).1.queue, []⟩, .ok true p) := by
  intro infer s b hmiss
  have hpred : GpuServer.predict infer b s false
      = (⟨s.cache, s.queue ++ [⟨GpuServer.hash_image_bytes b, b⟩]⟩,
         GpuServer.InferenceTimeout) := by
    simp [GpuServer.predict, hmiss]
  rw [hpred]
  refine ⟨rfl, by simp, ?_⟩
  rw [GpuServer.processQueue_append]
  refine ⟨(GpuServer.processJob infer
      (GpuServer.processQueue infer s.cache s.queue)
      ⟨GpuServer.hash_image_bytes b, b⟩).2, ?_, ?_⟩
  · exact GpuServer.processJob_cache_self infer _ _
  · intro w
    simp [GpuServer.predict, GpuServer.processJob_cache_self infer _ _]

theorem predict_timeout_job_not_cancelled_witness :
    cacheGet (GpuServer.ServerState.mk emptyCache []).cache
        (GpuServer.hash_image_bytes [0]) = none ∧
    (GpuServer.predict (fun _ => 1 / 2) [0] ⟨emptyCache, []⟩ false).2
      = GpuServer.InferenceTimeout ∧
    GpuServer.Job.mk (GpuServer.hash_image_bytes [0]) [0]
      ∈ (GpuServer.predict (fun _ => 1 / 2) [0] ⟨emptyCache, []⟩ false).1.queue :=
  ⟨rfl,
   (predict_timeout_job_not_cancelled (fun _ => 1 / 2) ⟨emptyCache, []⟩ [0] rfl).1,
   (predict_timeout_job_not_cancelled (fun _ => 1 / 2) ⟨emptyCache, []⟩ [0] rfl).2.1⟩

/-- C7: a submission whose fingerprint is in the cache store at the initial
lookup returns immediately with `from_cache = true` and the cached
probability, leaving the state (queue included) untouched; and submitting
the same bytes a second time after a completed first inference yields
`from_cache = true` with the same probability as the first response. -/
theorem predict_cache_hit_immediate :
    (∀ (infer : ByteSeq → ℚ) (s : GpuServer.ServerState) (b : ByteSeq) (p : ℚ)
       (w : Bool), cacheGet s.cache (GpuServer.hash_image_bytes b) = some p →
       GpuServer.predict infer b s w = (s, .ok true p)) ∧
    (∀ (infer : ByteSeq → ℚ) (s : GpuServer.ServerState) (b : ByteSeq),
       cacheGet s.cache (GpuServer.hash_image_bytes b) = none →
       ∃ p, (GpuServer.predict infer b s true).2 = .ok false p ∧
         ∀ w : Bool,
           GpuServer.predict infer b (GpuServer.predict infer b s true).1 w
             = ((GpuServer.predict infer b s true).1, .ok true p)) := by
  constructor
  · intro infer s b p w hhit
    simp [GpuServer.predict, hhit]
  · intro infer s b hmiss
    have hpred : GpuServer.predict infer b s true
        = (⟨(GpuServer.processJob infer (GpuServer.processQueue infer s.cache s.queue)
               ⟨GpuServer.hash_image_bytes b, b⟩).1, []⟩,
           .ok false (GpuServer.processJob infer
               (GpuServer.processQueue infer s.cache s.queue)
               ⟨GpuServer.hash_image_bytes b, b⟩).2) := by
      simp [GpuServer.predict, hmiss]
    rw [hpred]
    refine ⟨_, rfl, ?_⟩
    intro w
    simp [GpuServer.predict, GpuServer.processJob_cache_self infer _ _]

theorem predict_cache_hit_immediate_witness :
    cacheGet (cacheSet emptyCache (GpuServer.hash_image_bytes [0]) (1 / 2))
        (GpuServer.hash_image_bytes [0]) = some (1 / 2) ∧
    GpuServer.predict (fun _ => 1 / 3) [0]
        ⟨cacheSet emptyCache (GpuServer.hash_image_bytes [0]) (1 / 2), []⟩ true
      = (⟨cacheSet emptyCache (GpuServer.hash_image_bytes [0]) (1 / 2), []⟩,
         .ok true (1 / 2)) ∧
    (∃ p, (GpuServer.predict (fun _ => 1 / 3) [0] ⟨emptyCache, []⟩ true).2
        = .ok false p ∧
      ∀ w : Bool,
        GpuServer.predict (fun _ => 1 / 3) [0]
            (GpuServer.predict (fun _ => 1 / 3) [0] ⟨emptyCache, []⟩ true).1 w
          = ((GpuServer.predict (fun _ => 1 / 3) [0] ⟨emptyCache, []⟩ true).1,
             .ok true p)) :=
  ⟨cacheGet_cacheSet_self emptyCache (GpuServer.hash_image_bytes [0]) (1 / 2),
   predict_cache_hit_immediate.1 (fun _ => 1 / 3)
     ⟨cacheSet emptyCache (GpuServer.hash_image_bytes [0]) (1 / 2), []⟩ [0] (1 / 2)
     true (cacheGet_cacheSet_self emptyCache (GpuServer.hash_image_bytes [0]) (1 / 2)),
   predict_cache_hit_immediate.2 (fun _ => 1 / 3) ⟨emptyCache, []⟩ [0] rfl⟩

/-- C9: a submission that misses the initial cache lookup and completes
before the timeout reports `from_cache = false` — also when the worker's
re-check of the cache store found an existing entry and invoked no inference
(the state's queue may already hold a job with the same fingerprint) — so a
queue-path response never reports `from_cache = true`; and a client
receiving a success with `from_cache = false` writes the value into its
local cache. -/
theorem predict_queue_path_from_cache_false :
    (∀ (infer : ByteSeq → ℚ) (s : GpuServer.ServerState) (b : ByteSeq),
       cacheGet s.cache (GpuServer.hash_image_bytes b) = none →
       ∃ p, (GpuServer.predict infer b s true).2 = .ok false p) ∧
    (∀ (broker : Nat → Client.BrokerOutcome) (ih : String) (c : Cache)
       (attempt rem : Nat) (p : ℚ),
       broker attempt = .ok ⟨none, false, p⟩ →
       (Client.attemptLoop broker ih c attempt (rem + 1)).cache = cacheSet c ih p) := by
  constructor
  · intro infer s b hmiss
    refine ⟨(GpuServer.processJob infer (GpuServer.processQueue infer s.cache s.queue)
        ⟨GpuServer.hash_image_bytes b, b⟩).2, ?_⟩
    simp [GpuServer.predict, hmiss]
  · intro broker ih c attempt rem p h
    simp [Client.attemptLoop, h]

theorem predict_queue_path_from_cache_false_witness :
    (∃ p, (GpuServer.predict (fun _ => 1 / 3) [0] ⟨emptyCache, []⟩ true).2
        = .ok false p) ∧
    (Client.attemptLoop (fun _ => .ok ⟨none, false, 1 / 2⟩) "k" emptyCache 1 3).cache
      = cacheSet emptyCache "k" (1 / 2) :=
  ⟨predict_queue_path_from_cache_false.1 (fun _ => 1 / 3) ⟨emptyCache, []⟩ [0] rfl,
   predict_queue_path_from_cache_false.2 _ "k" emptyCache 1 2 (1 / 2) rfl⟩

theorem scoreTrace_cons (label : ℚ) (a : Axon) (as : List Axon) (u : Nat)
    (us : List Nat) (p : ℚ) (pss : List ℚ) (t : PerformanceTracker)
    (m : Option Metrics) :
    scoreTrace label (a :: as) (u :: us) (p :: pss) t m
      = scoreOne label a u p t m
        :: scoreTrace label as us pss (scoreOne label a u p t m).tracker
             (scoreOne label a u p t m).metrics_100 := rfl


theorem scoreTrace_get_invalid (label : ℚ) :
    ∀ (axons : List Axon) (uids : List Nat) (ps : List ℚ)
      (t : PerformanceTracker) (m : Option Metrics) (i : Nat)
      (h1 : i < (scoreTrace label axons uids ps t m).length) (h2 : i < ps.length),
      (ps[i] < 0 ∨ 1 < ps[i] ∨ ps[i] = -1) →
      (scoreTrace label axons uids ps t m)[i].total_reward = 0 := by
  intro axons
  induction axons with
  | nil => intro uids ps t m i h1 h2 hp; simp [scoreTrace] at h1
  | cons a as ih =>
    intro uids ps t m i h1 h2 hp
    cases uids with
    | nil => simp [scoreTrace] at h1
    | cons u us =>
      cases ps with
      | nil => simp [scoreTrace] at h1
      | cons p pss =>
        cases i with
        | zero =>
          simp only [List.getElem_cons_zero] at hp
          simp only [scoreTrace_cons, List.getElem_cons_zero]
          exact scoreOne_total_reward_invalid label a u p t m hp
        | succ n =>
          simp only [List.getElem_cons_succ] at hp
          have h1' : n < (scoreTrace label as us pss (scoreOne label a u p t m).tracker
              (scoreOne label a u p t m).metrics_100).length := by
            rw [scoreTrace_cons] at h1
            simpa using h1
          simp only [scoreTrace_cons, List.getElem_cons_succ]
          exact ih us pss _ _ n h1' (by simpa using h2) hp

/-- C1: in `get_rewards`, every miner whose prediction `p` satisfies `p < 0`
or `p > 1` or `p = -1` receives reward exactly 0, whatever the tracker's
history holds at that point of the batch. -/
theorem get_rewards_invalid_prediction_zero_reward :
    ∀ (label : ℚ) (responses : List ℚ) (uids : List Nat) (axons : List Axon)
      (t : PerformanceTracker) (i : Nat)
      (h1 : i < ((get_rewards label responses uids axons t).1).length)
      (h2 : i < responses.length),
      (responses[i] < 0 ∨ 1 < responses[i] ∨ responses[i] = -1) →
      ((get_rewards label responses uids axons t).1)[i] = 0 := by
  intro label responses uids axons t i h1 h2 hp
  have h1' : i < (scoreTrace label axons uids responses t none).length := by
    simpa [get_rewards] using h1
  have hmap : ((get_rewards label responses uids axons t).1)[i]
      = ((scoreTrace label axons uids responses t none)[i]).total_reward := by
    simp [get_rewards]
  rw [hmap]
  exact scoreTrace_get_invalid label axons uids responses t none i h1' h2 hp

theorem get_rewards_invalid_prediction_zero_reward_witness :
    (1 < (2 : ℚ)) ∧
    ((get_rewards 1 [2] [0] [Axon.mk "a"] PerformanceTracker.empty).1).getD 0 1
      = 0 := by
  have h1 : 0 < ((get_rewards 1 [2] [0] [Axon.mk "a"]
      PerformanceTracker.empty).1).length := by decide
  have h2 : 0 < ([(2 : ℚ)]).length := by decide
  have hp : ([(2 : ℚ)])[0] < 0 ∨ 1 < ([(2 : ℚ)])[0] ∨ ([(2 : ℚ)])[0] = -1 := by
    simp only [List.getElem_cons_zero]
    exact Or.inr (Or.inl (by decide))
  have hget := get_rewards_invalid_prediction_zero_reward 1 [2] [0] [Axon.mk "a"]
    PerformanceTracker.empty 0 h1 h2 hp
  refine ⟨by decide, ?_⟩
  rw [List.getD_eq_getElem _ _ h1]
  exact hget

/-- C5: for a scored miner whose prediction is not the no-response sentinel,
if the UID is already tracked and its tracked hotkey differs from the
current one, the history is reset before the new (prediction, label)
observation is recorded: afterwards the tracked history is exactly that
single observation, the miner is tracked under the new hotkey, and the
reported metrics window is computed from that single-observation history. -/
theorem scoreOne_hotkey_rotation_resets_history :
    ∀ (label : ℚ) (axon : Axon) (uid : Nat) (p : ℚ) (t : PerformanceTracker)
      (m : Option Metrics) (h0 : String),
      p ≠ -1 → t.hotkeyOf uid = some h0 → h0 ≠ axon.hotkey →
      (scoreOne label axon uid p t m).tracker.historyOf uid = [(p, label)] ∧
      (scoreOne label axon uid p t m).tracker.hotkeyOf uid = some axon.hotkey ∧
      (scoreOne label axon uid p t m).metricsEntry
        = some (metricsOfList [(p, label)]) := by
  intro label axon uid p t m h0 hp hhk hne
  have hsc : (scoreOne label axon uid p t m).tracker
        = (t.reset_miner_history uid axon.hotkey).update uid p label axon.hotkey ∧
      (scoreOne label axon uid p t m).metricsEntry
        = some (((t.reset_miner_history uid axon.hotkey).update uid p
            label axon.hotkey).get_metrics uid 100) := by
    constructor <;> simp [scoreOne, hp, hhk, hne]
  have hhist : ((t.reset_miner_history uid axon.hotkey).update uid p
      label axon.hotkey).historyOf uid = [(p, label)] := by
    rw [PerformanceTracker.historyOf_update, PerformanceTracker.historyOf_reset]
    norm_num [lastN]
  refine ⟨?_, ?_, ?_⟩
  · rw [hsc.1, hhist]
  · rw [hsc.1, PerformanceTracker.hotkeyOf_update]
  · rw [hsc.2, PerformanceTracker.get_metrics, hhist]
    norm_num [lastN]

theorem scoreOne_hotkey_rotation_resets_history_witness :
    ((0 : ℚ) ≠ -1) ∧
    (PerformanceTracker.mk [(7, "A")] [(7, [(1, 0)])]).hotkeyOf 7 = some "A" ∧
    "A" ≠ "B" ∧
    (scoreOne 1 (Axon.mk "B") 7 0
        (PerformanceTracker.mk [(7, "A")] [(7, [(1, 0)])]) none).tracker.historyOf 7
      = [(0, 1)] :=
  ⟨by decide, by decide, by decide,
   (scoreOne_hotkey_rotation_resets_history 1 (Axon.mk "B") 7 0
      (PerformanceTracker.mk [(7, "A")] [(7, [(1, 0)])]) none "A"
      (by decide) (by decide) (by decide)).1⟩

theorem scoreTrace_mem_caught (label : ℚ) :
    ∀ (axons : List Axon) (uids : List Nat) (ps : List ℚ)
      (t : PerformanceTracker) (m : Option Metrics) (r : IterResult),
      r ∈ scoreTrace label axons uids ps t m → r.caught = true →
      r.total_reward = 0 := by
  intro axons
  induction axons with
  | nil => intro uids ps t m r hmem hc; simp [scoreTrace] at hmem
  | cons a as ih =>
    intro uids ps t m r hmem hc
    cases uids with
    | nil => simp [scoreTrace] at hmem
    | cons u us =>
      cases ps with
      | nil => simp [scoreTrace] at hmem
      | cons p pss =>
        rw [scoreTrace_cons] at hmem
        rcases List.mem_cons.mp hmem with h | h
        · subst h
          exact scoreOne_caught_reward_zero label a u p t m hc
        · exact ih us pss _ _ r h hc

/-- C6: an exception raised during one miner's per-miner computation (in
this model, the `NameError` on reading the still-unassigned `metrics_100`
local in the no-response branch) is caught inside the loop: that miner's
returned reward is 0 and scoring continues, and the batch-level call always
returns one reward and one metrics entry per zipped input, never aborting
because of one miner's failure. -/
theorem get_rewards_per_miner_isolation :
    (∀ (label : ℚ) (responses : List ℚ) (uids : List Nat) (axons : List Axon)
       (t : PerformanceTracker),
       ((get_rewards label responses uids axons t).1).length
         = min axons.length (min uids.length responses.length) ∧
       ((get_rewards label responses uids axons t).2).length
         = min axons.length (min uids.length responses.length)) ∧
    (∀ (label : ℚ) (responses : List ℚ) (uids : List Nat) (axons : List Axon)
       (t : PerformanceTracker) (m : Option Metrics) (r : IterResult),
       r ∈ scoreTrace label axons uids responses t m → r.caught = true →
       r.total_reward = 0) := by
  constructor
  · intro label responses uids axons t
    constructor <;> simp [get_rewards, scoreTrace_length]
  · intro label responses uids axons t m r hmem hc
    exact scoreTrace_mem_caught label axons uids responses t m r hmem hc

theorem get_rewards_per_miner_isolation_witness :
    ((get_rewards 1 [-1, 0] [0, 1] [Axon.mk "a", Axon.mk "b"]
        PerformanceTracker.empty).1).length = 2 ∧
    (scoreOne 1 (Axon.mk "a") 0 (-1) PerformanceTracker.empty none).caught = true ∧
    (scoreOne 1 (Axon.mk "a") 0 (-1) PerformanceTracker.empty none).total_reward
      = 0 := by
  refine ⟨?_, by decide, ?_⟩
  · have h := (get_rewards_per_miner_isolation.1 1 [-1, 0] [0, 1]
      [Axon.mk "a", Axon.mk "b"] PerformanceTracker.empty).1
    simpa using h
  · refine get_rewards_per_miner_isolation.2 1 [-1, 0] [0, 1]
      [Axon.mk "a", Axon.mk "b"] PerformanceTracker.empty none _ ?_ (by decide)
    rw [scoreTrace_cons]
    exact List.mem_cons_self _ _

/-- C10: for a miner whose prediction equals −1, the engine neither resets
nor updates the tracker and does not read the miner's hotkey: the iteration
is independent of the axon, and the tracker state (for that miner and every
other) afterwards is exactly the state before. -/
theorem scoreOne_no_response_tracker_frame :
    ∀ (label : ℚ) (uid : Nat) (t : PerformanceTracker) (m : Option Metrics)
      (a1 a2 : Axon),
      scoreOne label a1 uid (-1) t m = scoreOne label a2 uid (-1) t m ∧
      (scoreOne label a1 uid (-1) t m).tracker = t := by
  intro label uid t m a1 a2
  constructor <;> cases m <;> simp [scoreOne]
